import Mathlib

/-!
Verification of the fraud-notebooks repository: a shallow embedding of the
two model-training notebooks (the gradient-boosting notebook and the
random-forest notebook) and proofs about their authored logic: the
time-based train/test split, the class counts and imbalance ratio, the
feature-importance ranking, the notebook step sequences, the serialization
step, error propagation, and seeded-randomness determinism.
-/

namespace FraudNotebooks

/-- A row of the transaction dataframe: the columns the notebooks read are
`timestamp` and `label` (raw feature columns are opaque to the authored
logic and are not inspected by it). -/
structure Row where
  timestamp : ℚ
  label : String
deriving DecidableEq, Repr

/-- The `timestamp` column of a dataframe, as pandas `df['timestamp']`. -/
def timestamps (df : List Row) : List ℚ := df.map Row.timestamp

/-- `Series.min` of pandas on a column: the minimum of a non-empty column,
undefined (`none`) on the empty one. -/
def colMin : List ℚ → Option ℚ
  | [] => none
  | x :: xs => some (xs.foldl min x)

/-- `Series.max` of pandas on a column. -/
def colMax : List ℚ → Option ℚ
  | [] => none
  | x :: xs => some (xs.foldl max x)

/-- `cutoff = first + ((last - first) * 0.7)` where
`first = df['timestamp'].min()` and `last = df['timestamp'].max()`. -/
def cutoff (df : List Row) : Option ℚ :=
  match colMin (timestamps df), colMax (timestamps df) with
  | some first, some last => some (first + (last - first) * (7/10))
  | _, _ => none

/-- `df[df['timestamp'] <= cutoff]`: the train split before any
downsampling (the random-forest notebook uses it as-is; the
gradient-boosting notebook further applies `.sample`). -/
def trainSplitRaw (df : List Row) : List Row :=
  match cutoff df with
  | some c => df.filter (fun r => decide (r.timestamp ≤ c))
  | none => []

/-- `df[df['timestamp'] > cutoff]`: the test split. -/
def testSplit (df : List Row) : List Row :=
  match cutoff df with
  | some c => df.filter (fun r => decide (c < r.timestamp))
  | none => []

/-- `train[train["label"] == lbl]`: filter rows by label equality. -/
def filterLabel (train : List Row) (lbl : String) : List Row :=
  train.filter (fun r => r.label == lbl)

/-- `Series.count()` on the `label` column of a frame: the number of
non-null entries; every modelled row carries a (non-null) label, so this
is the number of rows. -/
def labelColCount (df : List Row) : Nat := df.length

/-- `fraud_count = train[train["label"] == "fraud"]["label"].count()`. -/
def fraud_count (train : List Row) : Nat :=
  labelColCount (filterLabel train "fraud")

/-- `legit_count = train[train["label"] == "legitimate"]["label"].count()`. -/
def legit_count (train : List Row) : Nat :=
  labelColCount (filterLabel train "legitimate")

/-- `pct = fraud_count/legit_count`: the class-imbalance ratio, a raw
division with no guard on the divisor. -/
def pct (train : List Row) : ℚ :=
  (fraud_count train : ℚ) / (legit_count train : ℚ)

/-- `l = list(enumerate(xgb.feature_importances_)); l.sort(key=lambda x: -x[1]);
l[:5]`: pair each importance with its index, sort stably by descending
importance, keep the first five. -/
def featureRanking (importances : List ℚ) : List (Nat × ℚ) :=
  (List.insertionSort (fun a b : Nat × ℚ => b.2 ≤ a.2) importances.enum).take 5

/-- The kinds of pipeline step a notebook cell performs. -/
inductive Step where
  | load | split | downsample | loadPipeline | countClasses | transform
  | computePct | fit | predict | score | plot | featureImportance | serialize
deriving DecidableEq, Repr

/-- The step sequence of the gradient-boosting notebook, cell by cell:
`read_parquet`; `cutoff`/`train`/`test` with `.sample` on `train`;
`cp.load`; `fraud_count`/`legit_count`; `fit_transform(train)`; `pct`;
`xgb.fit`; `xgb.predict`; `classification_report`;
`plot.binary_confusion_matrix`; the feature-importance sort;
`util.serialize_to`. -/
def xgbSteps : List Step :=
  [.load, .split, .downsample, .loadPipeline, .countClasses, .transform,
   .computePct, .fit, .predict, .score, .plot, .featureImportance, .serialize]

/-- The step sequence of the random-forest notebook, cell by cell:
`read_parquet`; `cutoff`/`train`/`test` (no `.sample`); `cp.load`;
`fit_transform(train)`; `rfc.fit`; `rfc.predict`;
`classification_report`; `plot.binary_confusion_matrix`. No downsample
and no serialization cell exists (only a markdown placeholder). -/
def rfSteps : List Step :=
  [.load, .split, .loadPipeline, .transform, .fit, .predict, .score, .plot]

/-- The step sequence the spec asserts for each notebook, following the
spec's words: load data → split by time → downsample → load feature
pipeline → transform → fit classifier → predict → score → plot →
serialize. -/
def specClaimedSteps : List Step :=
  [.load, .split, .downsample, .loadPipeline, .transform, .fit, .predict,
   .score, .plot, .serialize]

/-- A serialized notebook output: the file it is written to and the keys
of the bundled dict. -/
structure SerializedOutput where
  path : String
  keys : List String
deriving DecidableEq, Repr

/-- The gradient-boosting notebook's serialization:
`xgb_dict = {'model': xgb, 'class_report': ...}; util.serialize_to(xgb_dict, "xgb.sav")`. -/
def xgbSerialization : Option SerializedOutput :=
  some ⟨"xgb.sav", ["model", "class_report"]⟩

/-- The random-forest notebook's serialization: none exists; the final
cell is only the markdown placeholder `# save model here`. -/
def rfSerialization : Option SerializedOutput := none

/-- Whether a notebook's serialization bundles the trained model together
with the classification report, following the spec's words. -/
def serializesBundle (s : Option SerializedOutput) : Prop :=
  ∃ o, s = some o ∧ "model" ∈ o.keys ∧ "class_report" ∈ o.keys

/-- Sequential execution of notebook cells: each step transforms the
kernel state or raises, and a raise aborts the rest of the sequence; no
cell installs a handler. -/
def runSteps {σ ε : Type} (steps : List (σ → Except ε σ)) (s : σ) : Except ε σ :=
  match steps with
  | [] => .ok s
  | f :: rest =>
    match f s with
    | .error e => .error e
    | .ok s' => runSteps rest s'

/-- Running the gradient-boosting notebook under an interpretation `fns`
of each step kind as a state transformer that may raise. -/
def xgbRun {σ ε : Type} (fns : Step → σ → Except ε σ) (s : σ) : Except ε σ :=
  runSteps (xgbSteps.map fns) s

/-- Running the random-forest notebook under an interpretation `fns` of
each step kind. -/
def rfRun {σ ε : Type} (fns : Step → σ → Except ε σ) (s : σ) : Except ε σ :=
  runSteps (rfSteps.map fns) s

/-- The seed a library's pseudo-random generator actually uses: the
`random_state` argument when one is passed, the ambient entropy of the
run otherwise. -/
def effectiveSeed (randomState : Option Nat) (entropy : Nat) : Nat :=
  match randomState with
  | some s => s
  | none => entropy

/-- `DataFrame.sample(frac=..., random_state=...)`: a deterministic
function (`sampler`) of the frame, the fraction and the effective seed. -/
def sampleCall {DF : Type} (sampler : DF → ℚ → Nat → DF) (df : DF)
    (frac : ℚ) (randomState : Option Nat) (entropy : Nat) : DF :=
  sampler df frac (effectiveSeed randomState entropy)

/-- The gradient-boosting notebook's downsample of the train split:
`.sample(frac=0.35, random_state=404)`. -/
def downsampleTrain {DF : Type} (sampler : DF → ℚ → Nat → DF) (train : DF)
    (entropy : Nat) : DF :=
  sampleCall sampler train (35/100) (some 404) entropy

/-- The configuration of the random-forest classifier as constructed in
the random-forest notebook. -/
structure RFCConfig where
  n_estimators : Nat
  max_depth : Nat
  random_state : Option Nat
  class_weight : String
deriving DecidableEq, Repr

/-- `RandomForestClassifier(n_estimators=4, max_depth=8, random_state=404,
class_weight="balanced_subsample")`, constructed during a run with
ambient entropy `entropy`. -/
def mkRFC (entropy : Nat) : RFCConfig :=
  { n_estimators := 4
    max_depth := 8
    random_state := some 404
    class_weight := "balanced_subsample" }

/-- The seed the random-forest classifier's randomness is driven by in a
run with ambient entropy `entropy`. -/
def rfcSeed (entropy : Nat) : Nat :=
  effectiveSeed (mkRFC entropy).random_state entropy

/-! ### Helper lemmas about column minima and maxima -/

theorem foldl_min_le_init (xs : List ℚ) (x : ℚ) : xs.foldl min x ≤ x := by
  induction xs generalizing x with
  | nil => exact le_refl x
  | cons y ys ih =>
    exact le_trans (ih (min x y)) (min_le_left x y)

theorem foldl_min_le_mem (xs : List ℚ) (x y : ℚ) (hy : y ∈ xs) :
    xs.foldl min x ≤ y := by
  induction xs generalizing x with
  | nil => cases hy
  | cons z zs ih =>
    rcases List.mem_cons.mp hy with h | h
    · subst h
      exact le_trans (foldl_min_le_init zs (min x y)) (min_le_right x y)
    · exact ih (min x z) h

theorem foldl_min_mem (xs : List ℚ) (x : ℚ) :
    xs.foldl min x = x ∨ xs.foldl min x ∈ xs := by
  induction xs generalizing x with
  | nil => exact Or.inl rfl
  | cons y ys ih =>
    rcases ih (min x y) with h | h
    · rcases min_choice x y with hc | hc
      · exact Or.inl (by rw [List.foldl_cons, h, hc])
      · refine Or.inr ?_
        rw [List.foldl_cons, h, hc]
        exact List.mem_cons_self y ys
    · exact Or.inr (List.mem_cons_of_mem y h)

theorem foldl_max_mem (xs : List ℚ) (x : ℚ) :
    xs.foldl max x = x ∨ xs.foldl max x ∈ xs := by
  induction xs generalizing x with
  | nil => exact Or.inl rfl
  | cons y ys ih =>
    rcases ih (max x y) with h | h
    · rcases max_choice x y with hc | hc
      · exact Or.inl (by rw [List.foldl_cons, h, hc])
      · refine Or.inr ?_
        rw [List.foldl_cons, h, hc]
        exact List.mem_cons_self y ys
    · exact Or.inr (List.mem_cons_of_mem y h)

theorem init_le_foldl_max (xs : List ℚ) (x : ℚ) : x ≤ xs.foldl max x := by
  induction xs generalizing x with
  | nil => exact le_refl x
  | cons y ys ih =>
    exact le_trans (le_max_left x y) (ih (max x y))

theorem mem_le_foldl_max (xs : List ℚ) (x y : ℚ) (hy : y ∈ xs) :
    y ≤ xs.foldl max x := by
  induction xs generalizing x with
  | nil => cases hy
  | cons z zs ih =>
    rcases List.mem_cons.mp hy with h | h
    · subst h
      exact le_trans (le_max_right x y) (init_le_foldl_max zs (max x y))
    · exact ih (max x z) h

/-- The minimum of a non-empty column is an element of it and a lower
bound for it. -/
theorem colMin_spec (xs : List ℚ) (m : ℚ) (h : colMin xs = some m) :
    m ∈ xs ∧ ∀ y ∈ xs, m ≤ y := by
  cases xs with
  | nil => cases h
  | cons x rest =>
    have hm : rest.foldl min x = m := by
      simpa [colMin] using h
    constructor
    · rcases foldl_min_mem rest x with h0 | h0
      · rw [← hm, h0]; exact List.mem_cons_self x rest
      · rw [← hm]; exact List.mem_cons_of_mem x h0
    · intro y hy
      rcases List.mem_cons.mp hy with h0 | h0
      · rw [← hm, h0]; exact foldl_min_le_init rest x
      · rw [← hm]; exact foldl_min_le_mem rest x y h0

/-- The maximum of a non-empty column is an element of it and an upper
bound for it. -/
theorem colMax_spec (xs : List ℚ) (m : ℚ) (h : colMax xs = some m) :
    m ∈ xs ∧ ∀ y ∈ xs, y ≤ m := by
  cases xs with
  | nil => cases h
  | cons x rest =>
    have hm : rest.foldl max x = m := by
      simpa [colMax] using h
    constructor
    · rcases foldl_max_mem rest x with h0 | h0
      · rw [← hm, h0]; exact List.mem_cons_self x rest
      · rw [← hm]; exact List.mem_cons_of_mem x h0
    · intro y hy
      rcases List.mem_cons.mp hy with h0 | h0
      · rw [← hm, h0]; exact init_le_foldl_max rest x
      · rw [← hm]; exact mem_le_foldl_max rest x y h0

/-- On a non-empty dataframe the cutoff is defined and equals
`first + (last - first) * 0.7`. -/
theorem cutoff_eq (df : List Row) (hdf : df ≠ []) :
    ∃ first last, colMin (timestamps df) = some first ∧
      colMax (timestamps df) = some last ∧
      cutoff df = some (first + (last - first) * (7/10)) := by
  cases df with
  | nil => exact absurd rfl hdf
  | cons d ds =>
    exact ⟨(ds.map Row.timestamp).foldl min d.timestamp,
           (ds.map Row.timestamp).foldl max d.timestamp, rfl, rfl, rfl⟩

/-- The two complementary timestamp filters split the row count. -/
theorem length_split_filters (df : List Row) (c : ℚ) :
    (df.filter (fun r => decide (r.timestamp ≤ c))).length +
      (df.filter (fun r => decide (c < r.timestamp))).length = df.length := by
  induction df with
  | nil => rfl
  | cons d ds ih =>
    by_cases h : d.timestamp ≤ c
    · have h2 : ¬ c < d.timestamp := not_lt.mpr h
      simp [List.filter_cons, h, h2]
      omega
    · have h2 : c < d.timestamp := not_le.mp h
      simp [List.filter_cons, h, h2]
      omega

/-- C1: the time-based train/test split computes
`cutoff = first + 0.7 * (last - first)` from the minimum and maximum of
the timestamp column, sends every row with timestamp ≤ cutoff to the
train split and every row with timestamp > cutoff to the test split, and
every row of the input belongs to exactly one of the two splits (before
any downsampling of the train split). -/
theorem c1_split_partition (df : List Row) (hdf : df ≠ []) :
    ∃ first last c, colMin (timestamps df) = some first ∧
      colMax (timestamps df) = some last ∧
      c = first + (last - first) * (7/10) ∧
      cutoff df = some c ∧
      trainSplitRaw df = df.filter (fun r => decide (r.timestamp ≤ c)) ∧
      testSplit df = df.filter (fun r => decide (c < r.timestamp)) ∧
      (∀ r ∈ df, (r ∈ trainSplitRaw df ∧ r ∉ testSplit df) ∨
        (r ∈ testSplit df ∧ r ∉ trainSplitRaw df)) ∧
      (trainSplitRaw df).length + (testSplit df).length = df.length := by
  obtain ⟨first, last, hmin, hmax, hcut⟩ := cutoff_eq df hdf
  have htr : trainSplitRaw df
      = df.filter (fun r => decide (r.timestamp ≤ first + (last - first) * (7/10))) := by
    simp [trainSplitRaw, hcut]
  have hte : testSplit df
      = df.filter (fun r => decide (first + (last - first) * (7/10) < r.timestamp)) := by
    simp [testSplit, hcut]
  refine ⟨first, last, first + (last - first) * (7/10), hmin, hmax, rfl, hcut,
    htr, hte, ?_, ?_⟩
  · intro r hr
    rcases le_or_lt r.timestamp (first + (last - first) * (7/10)) with h | h
    · left
      constructor
      · rw [htr]
        exact List.mem_filter.mpr ⟨hr, by simpa using h⟩
      · rw [hte]
        intro hmem
        have h2 := (List.mem_filter.mp hmem).2
        simp only [decide_eq_true_eq] at h2
        exact absurd h2 (not_lt.mpr h)
    · right
      constructor
      · rw [hte]
        exact List.mem_filter.mpr ⟨hr, by simpa using h⟩
      · rw [htr]
        intro hmem
        have h2 := (List.mem_filter.mp hmem).2
        simp only [decide_eq_true_eq] at h2
        exact absurd h2 (not_le.mpr h)
  · rw [htr, hte]
    exact length_split_filters df _

/-- A concrete three-row dataframe used to witness C1. -/
def dfEx : List Row := [⟨0, "fraud"⟩, ⟨3, "legitimate"⟩, ⟨10, "legitimate"⟩]

/-- Witness for C1 at a concrete dataframe. -/
theorem c1_split_partition_witness :
    dfEx ≠ [] ∧
    (∃ first last c, colMin (timestamps dfEx) = some first ∧
      colMax (timestamps dfEx) = some last ∧
      c = first + (last - first) * (7/10) ∧
      cutoff dfEx = some c ∧
      trainSplitRaw dfEx = dfEx.filter (fun r => decide (r.timestamp ≤ c)) ∧
      testSplit dfEx = dfEx.filter (fun r => decide (c < r.timestamp)) ∧
      (∀ r ∈ dfEx, (r ∈ trainSplitRaw dfEx ∧ r ∉ testSplit dfEx) ∨
        (r ∈ testSplit dfEx ∧ r ∉ trainSplitRaw dfEx)) ∧
      (trainSplitRaw dfEx).length + (testSplit dfEx).length = dfEx.length) :=
  ⟨by decide, c1_split_partition dfEx (by decide)⟩

/-- C9: on every non-empty dataframe the cutoff satisfies
first ≤ cutoff ≤ last, a row attaining the minimum timestamp lands in
the train split, so the pre-downsampling train split is non-empty, while
the test split may be empty: on a dataframe whose timestamps are all
equal, no row satisfies timestamp > cutoff. -/
theorem c9_cutoff_bounds (df : List Row) (hdf : df ≠ []) :
    ∃ first last c, colMin (timestamps df) = some first ∧
      colMax (timestamps df) = some last ∧
      cutoff df = some c ∧ first ≤ c ∧ c ≤ last ∧
      (∃ r ∈ trainSplitRaw df, r.timestamp = first) ∧
      trainSplitRaw df ≠ [] ∧
      testSplit [⟨5, "fraud"⟩, ⟨5, "legitimate"⟩] = [] := by
  obtain ⟨first, last, hmin, hmax, hcut⟩ := cutoff_eq df hdf
  obtain ⟨hfmem, hflb⟩ := colMin_spec _ _ hmin
  obtain ⟨hlmem, hlub⟩ := colMax_spec _ _ hmax
  have hfl : first ≤ last := hlub first hfmem
  have h1 : first ≤ first + (last - first) * (7/10) := by nlinarith
  have h2 : first + (last - first) * (7/10) ≤ last := by nlinarith
  obtain ⟨r, hr, hrts⟩ := List.mem_map.mp hfmem
  have hrtrain : r ∈ trainSplitRaw df := by
    have htr : trainSplitRaw df
        = df.filter (fun r => decide (r.timestamp ≤ first + (last - first) * (7/10))) := by
      simp [trainSplitRaw, hcut]
    rw [htr]
    refine List.mem_filter.mpr ⟨hr, ?_⟩
    simp only [decide_eq_true_eq, hrts]
    exact h1
  refine ⟨first, last, first + (last - first) * (7/10), hmin, hmax, hcut, h1, h2,
    ⟨r, hrtrain, hrts⟩, List.ne_nil_of_mem hrtrain, ?_⟩
  have h5 : ((5:ℚ) + ((5:ℚ) - 5) * (7/10)) = 5 := by norm_num
  simp [testSplit, cutoff, timestamps, colMin, colMax, h5, List.filter]

/-- A concrete dataframe with all timestamps equal, witnessing C9. -/
def dfEq : List Row := [⟨5, "fraud"⟩, ⟨5, "legitimate"⟩]

/-- Witness for C9 at a concrete dataframe. -/
theorem c9_cutoff_bounds_witness :
    dfEq ≠ [] ∧
    (∃ first last c, colMin (timestamps dfEq) = some first ∧
      colMax (timestamps dfEq) = some last ∧
      cutoff dfEq = some c ∧ first ≤ c ∧ c ≤ last ∧
      (∃ r ∈ trainSplitRaw dfEq, r.timestamp = first) ∧
      trainSplitRaw dfEq ≠ [] ∧
      testSplit [⟨5, "fraud"⟩, ⟨5, "legitimate"⟩] = []) :=
  ⟨by decide, c9_cutoff_bounds dfEq (by decide)⟩

/-- The spec's fraud count, following the spec's words: the number of
rows of the training set whose label equals "fraud". -/
def specFraudCount (train : List Row) : Nat :=
  train.countP (fun r => r.label == "fraud")

/-- The spec's legitimate count, following the spec's words: the number
of rows of the training set whose label equals "legitimate". -/
def specLegitCount (train : List Row) : Nat :=
  train.countP (fun r => r.label == "legitimate")

/-- C2: the class-imbalance ratio equals fraud_count / legit_count,
where fraud_count is the number of training rows labelled "fraud" and
legit_count the number labelled "legitimate". -/
theorem c2_pct_counts (train : List Row) :
    fraud_count train = specFraudCount train ∧
    legit_count train = specLegitCount train ∧
    pct train = (specFraudCount train : ℚ) / (specLegitCount train : ℚ) := by
  refine ⟨?_, ?_, ?_⟩ <;>
    simp [fraud_count, legit_count, labelColCount, filterLabel, pct,
      specFraudCount, specLegitCount, List.countP_eq_length_filter]

/-- C7: when every row's label is "fraud" or "legitimate", the two class
counts partition the training set: fraud_count + legit_count equals the
number of rows. -/
theorem c7_counts_partition (train : List Row)
    (h : ∀ r ∈ train, r.label = "fraud" ∨ r.label = "legitimate") :
    fraud_count train + legit_count train = train.length := by
  induction train with
  | nil => rfl
  | cons r rs ih =>
    have hr := h r (List.mem_cons_self r rs)
    have ih2 := ih (fun x hx => h x (List.mem_cons_of_mem r hx))
    rcases hr with hf | hl
    · have hne : r.label ≠ "legitimate" := by rw [hf]; decide
      simp only [fraud_count, legit_count, labelColCount, filterLabel,
        List.filter_cons] at ih2 ⊢
      simp [hf, hne] at ih2 ⊢
      omega
    · have hne : r.label ≠ "fraud" := by rw [hl]; decide
      simp only [fraud_count, legit_count, labelColCount, filterLabel,
        List.filter_cons] at ih2 ⊢
      simp [hl, hne] at ih2 ⊢
      omega

/-- A concrete training set with both labels, witnessing C7. -/
def trainEx : List Row := [⟨0, "fraud"⟩, ⟨1, "legitimate"⟩, ⟨2, "legitimate"⟩]

/-- Witness for C7 at a concrete training set. -/
theorem c7_counts_partition_witness :
    (∀ r ∈ trainEx, r.label = "fraud" ∨ r.label = "legitimate") ∧
    fraud_count trainEx + legit_count trainEx = trainEx.length :=
  ⟨by decide, c7_counts_partition trainEx (by decide)⟩

/-- C8: pct is a raw division with no guard on the divisor: whenever
legit_count > 0 it is the exact ratio (pct * legit_count = fraud_count),
and on any training split with no row labelled "legitimate" the divisor
legit_count is zero. -/
theorem c8_pct_guard :
    (∀ train : List Row, 0 < legit_count train →
      pct train * (legit_count train : ℚ) = (fraud_count train : ℚ)) ∧
    (∀ train : List Row, (∀ r ∈ train, r.label ≠ "legitimate") →
      legit_count train = 0) := by
  constructor
  · intro train h
    have hne : ((legit_count train : ℚ)) ≠ 0 :=
      Nat.cast_ne_zero.mpr (Nat.pos_iff_ne_zero.mp h)
    rw [pct, div_mul_cancel₀ _ hne]
  · intro train h
    simp only [legit_count, labelColCount, filterLabel]
    rw [List.length_eq_zero, List.filter_eq_nil_iff]
    intro r hr
    simpa using h r hr

/-- A concrete training set with a legitimate row. -/
def trainMixed : List Row := [⟨0, "fraud"⟩, ⟨1, "legitimate"⟩]

/-- A concrete training set with no legitimate row. -/
def trainNoLegit : List Row := [⟨0, "fraud"⟩, ⟨1, "fraud"⟩]

/-- Witness for C8 at concrete training sets. -/
theorem c8_pct_guard_witness :
    (0 < legit_count trainMixed ∧
      pct trainMixed * (legit_count trainMixed : ℚ) = (fraud_count trainMixed : ℚ)) ∧
    ((∀ r ∈ trainNoLegit, r.label ≠ "legitimate") ∧
      legit_count trainNoLegit = 0) :=
  ⟨⟨by decide, c8_pct_guard.1 trainMixed (by decide)⟩,
   ⟨by decide, c8_pct_guard.2 trainNoLegit (by decide)⟩⟩

/-- C3: the feature-importance ranking pairs each importance with its
original index, sorts non-increasingly by importance and takes the first
five: every element of the result is an (index, importance) pair of the
enumerated vector, the result is sorted non-increasingly by importance,
its importances are the first five of the descending sort of the vector
(hence the five largest values), and the result has fewer than five
entries exactly when the vector does. -/
theorem c3_featureRanking (importances : List ℚ) :
    (∀ p ∈ featureRanking importances, p ∈ importances.enum) ∧
    List.Sorted (fun a b : Nat × ℚ => b.2 ≤ a.2) (featureRanking importances) ∧
    (featureRanking importances).map Prod.snd
      = (List.insertionSort (fun a b : ℚ => b ≤ a) importances).take 5 ∧
    (featureRanking importances).length = min 5 importances.length := by
  haveI : IsTotal (Nat × ℚ) (fun a b : Nat × ℚ => b.2 ≤ a.2) :=
    ⟨fun a b => le_total b.2 a.2⟩
  haveI : IsTrans (Nat × ℚ) (fun a b : Nat × ℚ => b.2 ≤ a.2) :=
    ⟨fun a b c h1 h2 => le_trans h2 h1⟩
  haveI : IsTotal ℚ (fun a b : ℚ => b ≤ a) := ⟨fun a b => le_total b a⟩
  haveI : IsTrans ℚ (fun a b : ℚ => b ≤ a) := ⟨fun a b c h1 h2 => le_trans h2 h1⟩
  haveI : IsAntisymm ℚ (fun a b : ℚ => b ≤ a) := ⟨fun a b h1 h2 => le_antisymm h2 h1⟩
  simp only [featureRanking]
  set L := List.insertionSort (fun a b : Nat × ℚ => b.2 ≤ a.2) importances.enum with hL
  have hsorted : List.Sorted (fun a b : Nat × ℚ => b.2 ≤ a.2) L :=
    List.sorted_insertionSort _ _
  have hperm : L.Perm importances.enum := List.perm_insertionSort _ _
  refine ⟨?_, ?_, ?_, ?_⟩
  · intro p hp
    exact hperm.mem_iff.mp (List.take_subset 5 L hp)
  · exact List.Pairwise.sublist (List.take_sublist 5 L) hsorted
  · have hmapsorted : List.Sorted (fun a b : ℚ => b ≤ a) (L.map Prod.snd) := by
      rw [List.Sorted, List.pairwise_map]
      exact hsorted
    have hmp : (L.map Prod.snd).Perm importances := by
      have h1 := hperm.map Prod.snd
      rwa [List.enum_map_snd] at h1
    have hrs : List.Sorted (fun a b : ℚ => b ≤ a)
        (List.insertionSort (fun a b : ℚ => b ≤ a) importances) :=
      List.sorted_insertionSort _ _
    have hrp := List.perm_insertionSort (fun a b : ℚ => b ≤ a) importances
    have heq : L.map Prod.snd = List.insertionSort (fun a b : ℚ => b ≤ a) importances :=
      List.eq_of_perm_of_sorted (hmp.trans hrp.symm) hmapsorted hrs
    rw [List.map_take, heq]
  · rw [List.length_take, hperm.length_eq, List.enum_length]

/-- C4 counterexample: the claim that each notebook executes exactly the
spec's step sequence fails: neither notebook's cell sequence equals it,
and the random-forest notebook has no downsample step and no serialize
step at all. -/
theorem c4_step_sequence_counterexample :
    xgbSteps ≠ specClaimedSteps ∧ rfSteps ≠ specClaimedSteps ∧
    Step.downsample ∉ rfSteps ∧ Step.serialize ∉ rfSteps := by decide

/-- C4 amended: the gradient-boosting notebook executes the spec's ten
steps in the spec's order, interleaved with class-counting, ratio and
feature-importance steps; the random-forest notebook executes load,
split, load pipeline, transform, fit, predict, score, plot in that
order, with no downsample and no serialization step. -/
theorem c4_step_sequence :
    List.Sublist specClaimedSteps xgbSteps ∧
    rfSteps = [.load, .split, .loadPipeline, .transform, .fit, .predict,
      .score, .plot] ∧
    Step.downsample ∉ rfSteps ∧ Step.serialize ∉ rfSteps := by decide

/-- C5 counterexample: the random-forest notebook serializes nothing, so
the claim that each notebook writes a serialized bundle of model and
classification report fails on it. -/
theorem c5_serialization_counterexample :
    ¬ (serializesBundle xgbSerialization ∧ serializesBundle rfSerialization) := by
  rintro ⟨-, o, ho, -⟩
  simp [rfSerialization] at ho

/-- C5 amended: only the gradient-boosting notebook serializes its
output, a dict with keys 'model' and 'class_report' written to
"xgb.sav"; the random-forest notebook has no serialization step (only a
markdown placeholder). -/
theorem c5_serialization :
    serializesBundle xgbSerialization ∧
    xgbSerialization = some ⟨"xgb.sav", ["model", "class_report"]⟩ ∧
    rfSerialization = none := by
  refine ⟨⟨⟨"xgb.sav", ["model", "class_report"]⟩, rfl, ?_, ?_⟩, rfl, rfl⟩ <;> decide

/-- Raising steps abort the rest of a cell sequence with their error:
`runSteps` installs no handler anywhere. -/
theorem runSteps_error_propagates {σ ε : Type} (pre post : List (σ → Except ε σ))
    (f : σ → Except ε σ) (s s' : σ) (e : ε)
    (hpre : runSteps pre s = .ok s') (hf : f s' = .error e) :
    runSteps (pre ++ f :: post) s = .error e := by
  induction pre generalizing s with
  | nil =>
    simp only [runSteps] at hpre
    cases hpre
    simp only [List.nil_append, runSteps, hf]
  | cons g gs ih =>
    simp only [List.cons_append, runSteps]
    cases hg : g s with
    | error e2 =>
      rw [runSteps, hg] at hpre
      cases hpre
    | ok s1 =>
      rw [runSteps, hg] at hpre
      exact ih s1 hpre

/-- C6: no operation in either notebook catches, handles or retries an
error: whenever one step of a notebook's cell sequence fails, after the
steps before it succeeded, the whole notebook run returns exactly that
error; no recovery branch exists. -/
theorem c6_no_error_handling {σ ε : Type} (fns : Step → σ → Except ε σ)
    (pre post : List (σ → Except ε σ)) (f : σ → Except ε σ)
    (s s' : σ) (e : ε) :
    (xgbSteps.map fns = pre ++ f :: post →
      runSteps pre s = .ok s' → f s' = .error e → xgbRun fns s = .error e) ∧
    (rfSteps.map fns = pre ++ f :: post →
      runSteps pre s = .ok s' → f s' = .error e → rfRun fns s = .error e) := by
  constructor
  · intro hsplit hpre hf
    rw [xgbRun, hsplit]
    exact runSteps_error_propagates pre post f s s' e hpre hf
  · intro hsplit hpre hf
    rw [rfRun, hsplit]
    exact runSteps_error_propagates pre post f s s' e hpre hf

/-- A concrete always-failing step interpretation, for the C6 witness. -/
def failingStep : Step → Nat → Except Nat Nat := fun _ _ => Except.error 7

/-- Witness for C6: with every step failing with error 7, both notebook
runs return error 7 unchanged. -/
theorem c6_no_error_handling_witness :
    xgbRun failingStep 0 = Except.error 7 ∧ rfRun failingStep 0 = Except.error 7 :=
  ⟨(c6_no_error_handling failingStep [] ((xgbSteps.map failingStep).tail)
      (failingStep Step.load) 0 0 7).1 rfl rfl rfl,
   (c6_no_error_handling failingStep [] ((rfSteps.map failingStep).tail)
      (failingStep Step.load) 0 0 7).2 rfl rfl rfl⟩

/-- C10: every randomized step authored in the notebooks fixes its seed:
the downsample passes frac 0.35 and random_state 404, and the
random-forest classifier is built with random_state 404, so the selected
training rows and the constructed classifier configuration do not depend
on the ambient entropy of the run: two runs on the same input agree. -/
theorem c10_fixed_seed_deterministic {DF : Type} (sampler : DF → ℚ → Nat → DF)
    (train : DF) (e₁ e₂ : Nat) :
    downsampleTrain sampler train e₁ = downsampleTrain sampler train e₂ ∧
    downsampleTrain sampler train e₁ = sampler train (35/100) 404 ∧
    mkRFC e₁ = mkRFC e₂ ∧
    rfcSeed e₁ = rfcSeed e₂ ∧
    rfcSeed e₁ = 404 :=
  ⟨rfl, rfl, rfl, rfl, rfl⟩

end FraudNotebooks
